import Mathlib

/-!
A shallow embedding of `src/main.py` of the mail-rememberer repository:
the `Message` and `Task` record types, their row conversions, the SQLite
persistence operations (`create_tables`, `insert_message`, `insert_task`),
the extraction protocol (`extract_tasks_from_message`) and the pipeline
orchestrator (`generate_and_insert_sample_data`).

Python calendar dates (`datetime.date`) are embedded as a `Date` structure
of year/month/day numerals together with executable `isoformat` /
`fromisoformat` functions mirroring CPython's implementation: `isoformat`
emits the canonical zero-padded `YYYY-MM-DD` form, and `fromisoformat`
embeds `parse_isoformat_date` of `Modules/_datetimemodule.c` (Python ≥
3.11, which the repository's PEP 695 `type` statement forces anyway),
accepting the canonical extended form, the basic `YYYYMMDD` form and ISO
week dates.  `date.today()` is an effect, so it is passed to the embedded
functions as an explicit `today : Date` argument.
Fallible Python code (functions whose body can raise) is embedded in
`Except String`; the error strings are the messages the source raises.
-/

namespace MailRememberer

/-! ### Decimal digit strings (embedding of `%d` rendering / `int` parsing) -/

/-- Character value of a decimal digit list, most significant first:
the accumulator fold `int` performs on a digit string. -/
def valAux (a : Nat) (cs : List Char) : Nat :=
  cs.foldl (fun acc c => 10 * acc + (c.toNat - 48)) a

/-- Decimal digits of `n`, most significant first, driven by explicit fuel
so that the definition is structural (kernel-reducible). -/
def natToDigitsAux : Nat → Nat → List Char
  | 0, _ => []
  | fuel + 1, n =>
    if n < 10 then [Nat.digitChar n]
    else natToDigitsAux fuel (n / 10) ++ [Nat.digitChar (n % 10)]

/-- Decimal digits of `n`, most significant first. -/
def natToDigits (n : Nat) : List Char :=
  natToDigitsAux (n + 1) n

/-- Left-pad a digit list with `'0'` to width `k`
(the `%04d` / `%02d` padding of `date.isoformat`). -/
def padZeros (k : Nat) (cs : List Char) : List Char :=
  List.replicate (k - cs.length) '0' ++ cs

/-- CPython's `parse_digits(p, var, num_digits)`: consume exactly `k` ASCII
digit characters, accumulating their value onto `acc`; `none` when a
non-digit (or the end of input, where C reads the NUL terminator) is hit. -/
def parseDigitsN : Nat → Nat → List Char → Option (Nat × List Char)
  | 0, acc, cs => some (acc, cs)
  | _ + 1, _, [] => none
  | k + 1, acc, c :: cs =>
    if c.isDigit then parseDigitsN k (10 * acc + (c.toNat - 48)) cs else none

/-! ### Calendar dates (embedding of `datetime.date`) -/

/-- A calendar date as `datetime.date` holds it. -/
structure Date where
  year : Nat
  month : Nat
  day : Nat
deriving Repr, DecidableEq

/-- Gregorian leap-year rule used by `datetime.date`. -/
def Date.isLeapYear (y : Nat) : Bool :=
  y % 4 = 0 && (y % 100 ≠ 0 || y % 400 = 0)

/-- Days in a month of a year, as `datetime.date` validates them. -/
def Date.daysInMonth (y m : Nat) : Nat :=
  if m = 2 then (if Date.isLeapYear y then 29 else 28)
  else if m = 4 ∨ m = 6 ∨ m = 9 ∨ m = 11 then 30
  else 31

/-- The range `datetime.date` accepts: year 1..9999, month 1..12,
day 1..days-in-month. -/
def Date.isValid (d : Date) : Bool :=
  1 ≤ d.year && d.year ≤ 9999 &&
  1 ≤ d.month && d.month ≤ 12 &&
  1 ≤ d.day && d.day ≤ Date.daysInMonth d.year d.month

/-- `date.isoformat`: the canonical zero-padded `YYYY-MM-DD` rendering. -/
def Date.isoformat (d : Date) : String :=
  ⟨padZeros 4 (natToDigits d.year) ++
    '-' :: (padZeros 2 (natToDigits d.month) ++
      '-' :: padZeros 2 (natToDigits d.day))⟩

/-! Proleptic-Gregorian ordinal arithmetic, embedding the static helpers of
CPython's `Modules/_datetimemodule.c` that `date.fromisoformat` relies on
for ISO week dates (`days_before_month`, `days_before_year`, `ymd_to_ord`,
`weekday`, `iso_week1_monday`, `ord_to_ymd`, `iso_to_ymd`). -/

/-- Days in year `y` strictly before month `m` (1-based). -/
def days_before_month (y m : Nat) : Nat :=
  (List.range (m - 1)).foldl (fun acc i => acc + Date.daysInMonth y (i + 1)) 0

/-- Days strictly before January 1 of year `y` (proleptic Gregorian). -/
def days_before_year (y : Nat) : Nat :=
  (y - 1) * 365 + ((y - 1) / 4 - (y - 1) / 100) + (y - 1) / 400

/-- Ordinal day number of `y-m-d`; day 1 is 0001-01-01. -/
def ymd_to_ord (y m d : Nat) : Nat :=
  days_before_year y + days_before_month y m + d

/-- Day of week of `y-m-d`, 0 = Monday .. 6 = Sunday. -/
def weekday (y m d : Nat) : Nat :=
  (ymd_to_ord y m d + 6) % 7

/-- Ordinal of the Monday starting ISO week 1 of year `y`. -/
def iso_week1_monday (y : Nat) : Nat :=
  let first_day := ymd_to_ord y 1 1
  let first_weekday := (first_day + 6) % 7
  let week1_monday := first_day - first_weekday
  if first_weekday > 3 then week1_monday + 7 else week1_monday

/-- Inverse of `ymd_to_ord`: CPython's `ord_to_ymd` (400/100/4/1-year cycle
division, then a month scan); defined for ordinals ≥ 1. -/
def ord_to_ymd (ordinal : Nat) : Date :=
  let o := ordinal - 1
  let n400 := o / 146097
  let r400 := o % 146097
  let n100 := r400 / 36524
  let r100 := r400 % 36524
  let n4 := r100 / 1461
  let r4 := r100 % 1461
  let n1 := r4 / 365
  let r1 := r4 % 365
  let year := n400 * 400 + n100 * 100 + n4 * 4 + n1 + 1
  if n1 = 4 ∨ n100 = 4 then ⟨year - 1, 12, 31⟩
  else
    let month := (List.range 11).foldl
      (fun acc i => if days_before_month year (i + 2) ≤ r1 then i + 2 else acc) 1
    ⟨year, month, r1 - days_before_month year month + 1⟩

/-- CPython's `iso_to_ymd`: convert an ISO (year, week, day) triple to a
calendar date — year must be in 1..9999, week in 1..52 (or 53 when the ISO
year has 53 weeks: January 1 a Thursday, or a Wednesday in a leap year),
day in 1..7; the resulting date is then validated by the `date` constructor
(which rejects the overflow past 9999-12-31). -/
def iso_to_ymd (iso_year iso_week iso_day : Nat) : Except String Date :=
  if iso_year < 1 ∨ iso_year > 9999 then
    .error "ValueError: year is out of range"
  else if iso_week = 0 ∨ (iso_week ≥ 53 ∧
      ¬(iso_week = 53 ∧ (weekday iso_year 1 1 = 3 ∨
        (weekday iso_year 1 1 = 2 ∧ Date.isLeapYear iso_year = true)))) then
    .error "ValueError: Invalid isoformat string"
  else if iso_day = 0 ∨ iso_day ≥ 8 then
    .error "ValueError: Invalid isoformat string"
  else
    let d := ord_to_ymd
      (iso_week1_monday iso_year + (iso_week - 1) * 7 + (iso_day - 1))
    if d.isValid then .ok d
    else .error "ValueError: year 10000 is out of range"

/-! The ISO date-string parser, embedding CPython's `parse_isoformat_date`
(and its caller's length gate `len == 7 || len == 8 || len == 10`).  The
parser is positional: 4 year digits, an optional `'-'` separator fixing
`uses_separator`, then either a `'W'`-introduced ISO week (2 digits, and —
when input remains — a separator-consistent dash and 1 weekday digit) or a
2-digit month, a separator-consistent dash, and a 2-digit day.  As in the
C code, characters after a successfully parsed date are *not* rejected —
the length gate is the only consumption control, so e.g. a 10-character
separator-less string parses with two trailing characters ignored. -/

/-- `if (uses_separator && *(p++) != '-') return -2;` — consume a dash
exactly when the string uses separators. -/
def sepConsume : Bool → List Char → Option (List Char)
  | false, p => some p
  | true, '-' :: r => some r
  | true, _ => none

/-- The month/day tail of `parse_isoformat_date`, followed by the range
validation the `date` constructor performs. -/
def parseIsoMonthTail (year : Nat) (uses_sep : Bool) (p2 : List Char) :
    Except String Date :=
  match parseDigitsN 2 0 p2 with
  | none => .error "ValueError: Invalid isoformat string"
  | some (month, p4) =>
    match sepConsume uses_sep p4 with
    | none => .error "ValueError: Invalid isoformat string"
    | some p5 =>
      match parseDigitsN 2 0 p5 with
      | none => .error "ValueError: Invalid isoformat string"
      | some (day, _) =>
        if Date.isValid ⟨year, month, day⟩ then .ok ⟨year, month, day⟩
        else .error "ValueError: day is out of range for month"

/-- The ISO-week tail of `parse_isoformat_date` (after the `'W'`): 2 week
digits, then — only when input remains — a separator-consistent dash and a
single weekday digit (defaulting to 1). -/
def parseIsoWeekTail (year : Nat) (uses_sep : Bool) (p3 : List Char) :
    Except String Date :=
  match parseDigitsN 2 0 p3 with
  | none => .error "ValueError: Invalid isoformat string"
  | some (iso_week, p4) =>
    match p4 with
    | [] => iso_to_ymd year iso_week 1
    | _ :: _ =>
      match sepConsume uses_sep p4 with
      | none => .error "ValueError: Invalid isoformat string"
      | some p5 =>
        match parseDigitsN 1 0 p5 with
        | none => .error "ValueError: Invalid isoformat string"
        | some (iso_day, _) => iso_to_ymd year iso_week iso_day

/-- Dispatch on `*p == 'W'` after the year and optional separator. -/
def parseIsoBody (year : Nat) (uses_sep : Bool) (p2 : List Char) :
    Except String Date :=
  if p2.head? = some 'W' then parseIsoWeekTail year uses_sep p2.tail
  else parseIsoMonthTail year uses_sep p2

/-- Detect the separator: `uses_separator = (*p == '-')`, consuming it. -/
def parseIsoSep (year : Nat) (p1 : List Char) : Except String Date :=
  if p1.head? = some '-' then parseIsoBody year true p1.tail
  else parseIsoBody year false p1

/-- `parse_isoformat_date` with its caller's length gate. -/
def parseIsoDate (cs : List Char) : Except String Date :=
  if cs.length = 7 ∨ cs.length = 8 ∨ cs.length = 10 then
    match parseDigitsN 4 0 cs with
    | none => .error "ValueError: Invalid isoformat string"
    | some (year, p1) => parseIsoSep year p1
  else .error "ValueError: Invalid isoformat string"

/-- `date.fromisoformat` as CPython ≥ 3.11 implements it (the repository
requires Python ≥ 3.12 for its PEP 695 `type` statement): canonical
`YYYY-MM-DD`, basic `YYYYMMDD`, and ISO week dates `YYYY-Www[-D]` /
`YYYYWww[D]`; anything else raises `ValueError`. -/
def Date.fromisoformat (s : String) : Except String Date :=
  parseIsoDate s.data

/-! ### Structured payloads (embedding of `dict[str, str]`) -/

/-- A tool-call argument mapping, `dict[str, str]`, as an association list
keyed by distinct strings. -/
abbrev Payload := List (String × String)

/-- `dict.get(key)`: the value at `key`, or `None` when absent. -/
def Payload.get (p : Payload) (k : String) : Option String :=
  (List.find? (fun kv => kv.1 == k) p).map (fun kv => kv.2)

/-- `dict.get(key, default)`: the value at `key`, or `default` when absent. -/
def Payload.getD (p : Payload) (k d : String) : String :=
  (Payload.get p k).getD d

/-- Python truthiness of an optional string: `None` and `""` are falsy. -/
def truthy : Option String → Bool
  | none => false
  | some s => !(s == "")

/-! ### Record types -/

/-- The `Message` dataclass. -/
structure Message where
  id : Option Int
  added_at : Date
  message : String
deriving Repr, DecidableEq

/-- The `Task` dataclass.  The Python `status` field is annotated with the
`TaskStatus` literal type, but dataclasses perform no runtime check, so the
embedding carries it as a plain string (validity is a predicate). -/
structure Task where
  id : Option Int
  added_at : Date
  last_modified_at : Date
  scheduled_for : Option Date
  scheduled_for_comment : Option String
  description : String
  status : String
  comment : String
  from_message : Option Int := none
deriving Repr, DecidableEq

/-- The four values of the `TaskStatus` literal type. -/
def taskStatuses : List String := ["pending", "running", "completed", "failed"]

/-- `Message.from_message`: a fresh unpersisted message dated today.
(`date.today()` is passed explicitly as `today`.) -/
def Message.from_message (today : Date) (message : String) : Message :=
  { id := none, added_at := today, message := message }

/-- `Message.to_db`: the `(added_at, message)` tuple bound into the
`INSERT INTO messages` statement (the id column is not part of it). -/
def Message.to_db (m : Message) : String × String :=
  (m.added_at.isoformat, m.message)

/-- A row of the `messages` table as `sqlite3.Row` presents it
(`id` is the integer primary key, never null). -/
structure MessageRow where
  id : Int
  added_at : String
  message : String
deriving Repr, DecidableEq

/-- `Message.from_db`: rebuild a `Message` from a `messages` row;
`date.fromisoformat` raises on a malformed stored date. -/
def Message.from_db (row : MessageRow) : Except String Message :=
  match Date.fromisoformat row.added_at with
  | .error e => .error e
  | .ok d => .ok { id := some row.id, added_at := d, message := row.message }

/-- `Task.from_description`: a fresh unpersisted pending task. -/
def Task.from_description (today : Date) (description : String)
    (from_message : Option Int := none) : Task :=
  { id := none, added_at := today, last_modified_at := today,
    scheduled_for := none, scheduled_for_comment := none,
    description := description, status := "pending", comment := "",
    from_message := from_message }

/-- `Task.from_llm_tool_call`: validate and convert a tool-call payload.
Raises (`.error`) when `description` or `status` is missing or falsy, when
`status` is outside the enumerated list, or when a truthy `scheduled_for`
fails `date.fromisoformat`; a falsy (`None` or empty) `scheduled_for` or
`scheduled_for_comment` becomes `none`. -/
def Task.from_llm_tool_call (today : Date) (properties : Payload) :
    Except String Task :=
  if !truthy (Payload.get properties "description") then
    .error "description must be provided"
  else if !truthy (Payload.get properties "status") then
    .error "status must be provided"
  else if Payload.getD properties "status" "" ∉ taskStatuses then
    .error "status must be one of pending, running, completed, failed"
  else
    match (if truthy (Payload.get properties "scheduled_for") then
             Except.map some
               (Date.fromisoformat (Payload.getD properties "scheduled_for" ""))
           else .ok none) with
    | .error e => .error e
    | .ok sf =>
      .ok { id := none, added_at := today, last_modified_at := today,
            scheduled_for := sf,
            scheduled_for_comment :=
              if truthy (Payload.get properties "scheduled_for_comment") then
                Payload.get properties "scheduled_for_comment"
              else none,
            description := Payload.getD properties "description" "",
            status := Payload.getD properties "status" "",
            comment := Payload.getD properties "comment" "",
            from_message := none }

/-- The 8-tuple `Task.to_db` produces, with the source's column order. -/
structure TaskRowData where
  added_at : String
  last_modified_at : String
  scheduled_for : Option String
  scheduled_for_comment : Option String
  description : String
  status : String
  comment : String
  from_message : Option Int
deriving Repr, DecidableEq

/-- `Task.to_db`: the tuple bound into the `INSERT INTO tasks` statement
(the id column is not part of it). -/
def Task.to_db (t : Task) : TaskRowData :=
  { added_at := t.added_at.isoformat,
    last_modified_at := t.last_modified_at.isoformat,
    scheduled_for := t.scheduled_for.map Date.isoformat,
    scheduled_for_comment := t.scheduled_for_comment,
    description := t.description,
    status := t.status,
    comment := t.comment,
    from_message := t.from_message }

/-- A row of the `tasks` table as `sqlite3.Row` presents it. -/
structure TaskRow where
  id : Int
  added_at : String
  last_modified_at : String
  scheduled_for : Option String
  scheduled_for_comment : Option String
  description : String
  status : String
  comment : String
  from_message : Option Int
deriving Repr, DecidableEq

/-- The `tasks` row holding column tuple `d` under primary key `id`. -/
def TaskRow.ofData (id : Int) (d : TaskRowData) : TaskRow :=
  { id := id, added_at := d.added_at, last_modified_at := d.last_modified_at,
    scheduled_for := d.scheduled_for,
    scheduled_for_comment := d.scheduled_for_comment,
    description := d.description, status := d.status, comment := d.comment,
    from_message := d.from_message }

/-- The stored `scheduled_for` column read back:
`date.fromisoformat(row["scheduled_for"]) if row["scheduled_for"] else None`
(both SQL `NULL` and the empty string are falsy). -/
def parseOptDate : Option String → Except String (Option Date)
  | none => .ok none
  | some s => if s == "" then .ok none else Except.map some (Date.fromisoformat s)

/-- `Task.from_db`: rebuild a `Task` from a `tasks` row. -/
def Task.from_db (row : TaskRow) : Except String Task :=
  match Date.fromisoformat row.added_at with
  | .error e => .error e
  | .ok added =>
    match Date.fromisoformat row.last_modified_at with
    | .error e => .error e
    | .ok lastMod =>
      match parseOptDate row.scheduled_for with
      | .error e => .error e
      | .ok sf =>
        .ok { id := some row.id, added_at := added,
              last_modified_at := lastMod, scheduled_for := sf,
              scheduled_for_comment := row.scheduled_for_comment,
              description := row.description, status := row.status,
              comment := row.comment, from_message := row.from_message }

/-! ### Persistence store

The SQLite connection state: the two tables' rows, the autoincrement
counters, and whether `PRAGMA foreign_keys = ON` has been issued on the
connection (SQLite enforces the `from_message` foreign key only then).
Fallible store operations return the (possibly unchanged) store together
with an `Except` result, so "the store is left unchanged" is expressible. -/

structure Store where
  messages : List MessageRow
  tasks : List TaskRow
  nextMessageId : Int
  nextTaskId : Int
  foreignKeysOn : Bool
deriving Repr, DecidableEq

/-- A fresh database: no rows, autoincrement counters at 1, foreign-key
enforcement off (SQLite's per-connection default). -/
def Store.empty : Store :=
  { messages := [], tasks := [], nextMessageId := 1, nextTaskId := 1,
    foreignKeysOn := false }

/-- `create_tables`: issues `PRAGMA foreign_keys = ON` and creates both
tables with `IF NOT EXISTS`.  Table existence is implicit in the model
(the row lists always exist), so the observable effect is enabling
foreign-key enforcement on the connection; idempotent. -/
def create_tables (s : Store) : Store :=
  { s with foreignKeysOn := true }

/-- `insert_message`: precondition `message.id is None`, then the row is
written with the next autoincrement id, which is also assigned onto the
in-memory entity (`message.id = message_id`) and returned. -/
def insert_message (s : Store) (message : Message) :
    Store × Except String (Int × Message) :=
  match message.id with
  | some _ => (s, .error "Message.id should be None when inserting a new message")
  | none =>
    let message_id := s.nextMessageId
    let row : MessageRow :=
      { id := message_id, added_at := message.to_db.1,
        message := message.to_db.2 }
    ({ s with messages := s.messages ++ [row],
              nextMessageId := message_id + 1 },
     .ok (message_id, { message with id := some message_id }))

/-- `insert_task`: precondition `task.id is None`; then the engine executes
the `INSERT`, which fails with a foreign-key error when enforcement is on
and `from_message` names no existing message row; otherwise the row is
written with the next autoincrement id, which is assigned onto the entity
and returned. -/
def insert_task (s : Store) (task : Task) :
    Store × Except String (Int × Task) :=
  match task.id with
  | some _ => (s, .error "Task.id should be None when inserting a new task")
  | none =>
    if s.foreignKeysOn &&
        (match task.from_message with
         | some fm => !(s.messages.any (fun r => r.id == fm))
         | none => false) then
      (s, .error "FOREIGN KEY constraint failed")
    else
      let task_id := s.nextTaskId
      let row : TaskRow := TaskRow.ofData task_id task.to_db
      ({ s with tasks := s.tasks ++ [row], nextTaskId := task_id + 1 },
       .ok (task_id, { task with id := some task_id }))

/-- `get_message_by_id`: point lookup, `none` when no row matches. -/
def get_message_by_id (s : Store) (message_id : Int) :
    Except String (Option Message) :=
  match s.messages.find? (fun r => r.id == message_id) with
  | none => .ok none
  | some row => Except.map some (Message.from_db row)

/-- `get_task_by_id`: point lookup, `none` when no row matches. -/
def get_task_by_id (s : Store) (task_id : Int) :
    Except String (Option Task) :=
  match s.tasks.find? (fun r => r.id == task_id) with
  | none => .ok none
  | some row => Except.map some (Task.from_db row)

/-! ### Extraction protocol

The model client's response is a list of choices; each choice carries a
finish reason and the tool calls of its message.  A tool call's
`function.arguments` is a JSON string; the embedding carries it already
passed through `json.loads` as `Except String Payload` — `.error` is the
`json.JSONDecodeError` the decode raises on malformed argument text.
Crucially, in the source `json.loads` runs *outside* the `try` block that
guards `Task.from_llm_tool_call`, so a decode error propagates out of
`extract_tasks_from_message` while a validation error is caught. -/

structure ToolFunction where
  name : String
  arguments : Except String Payload

structure ToolCall where
  function : ToolFunction

structure ChoiceMessage where
  tool_calls : List ToolCall

structure Choice where
  finish_reason : String
  message : ChoiceMessage

/-- The inner `for tool_call in choice.message.tool_calls` loop, carried
over the accumulated task list; `.error` is an uncaught exception. -/
def processToolCalls (today : Date) (tasks : List Task) :
    List ToolCall → Except String (List Task)
  | [] => .ok tasks
  | tool_call :: rest =>
    if tool_call.function.name == "insert_task" then
      match tool_call.function.arguments with
      | .error e => .error e
      | .ok task_desc =>
        match Task.from_llm_tool_call today task_desc with
        | .error _ => processToolCalls today tasks rest
        | .ok task => processToolCalls today (tasks ++ [task]) rest
    else
      processToolCalls today tasks rest

/-- The outer `for choice in response.choices` loop; a choice whose finish
reason is not `"tool_calls"` only logs a warning. -/
def processChoices (today : Date) (tasks : List Task) :
    List Choice → Except String (List Task)
  | [] => .ok tasks
  | choice :: rest =>
    if choice.finish_reason == "tool_calls" then
      match processToolCalls today tasks choice.message.tool_calls with
      | .error e => .error e
      | .ok tasks₂ => processChoices today tasks₂ rest
    else
      processChoices today tasks rest

/-- `extract_tasks_from_message`, from the point where the model client has
returned `response.choices`. -/
def extract_tasks_from_message (today : Date) (choices : List Choice) :
    Except String (List Task) :=
  processChoices today [] choices

/-- Specification-level description of one tool invocation's contribution:
its task when it is a decodable, valid `insert_task` call, nothing
otherwise. -/
def toolCallTask (today : Date) (tool_call : ToolCall) : Option Task :=
  if tool_call.function.name == "insert_task" then
    match tool_call.function.arguments with
    | .ok p => (Task.from_llm_tool_call today p).toOption
    | .error _ => none
  else none

/-- Specification-level description of the extraction result: the tasks of
every `"tool_calls"` choice's `insert_task` invocations whose arguments
decode and validate, in emission order. -/
def choiceValidTasks (today : Date) (choice : Choice) : List Task :=
  if choice.finish_reason == "tool_calls" then
    choice.message.tool_calls.filterMap (toolCallTask today)
  else []

/-- All valid tasks of a response, in emission order. -/
def validTasksOf (today : Date) (choices : List Choice) : List Task :=
  (choices.map (choiceValidTasks today)).foldr (· ++ ·) []

/-! ### Pipeline orchestrator -/

/-- The `for task in tasks: insert_task(cur, task)` loop; an exception from
one insert propagates, leaving earlier inserts in place. -/
def insertTasks (s : Store) : List Task → Store × Except String Unit
  | [] => (s, .ok ())
  | task :: rest =>
    match insert_task s task with
    | (s₁, .error e) => (s₁, .error e)
    | (s₁, .ok _) => insertTasks s₁ rest

/-- `generate_and_insert_sample_data`, from the point where the model has
produced the sample message text and, for the extraction call, the response
choices: persist the message, extract tasks from the text, persist each.
The message id returned by `insert_message` is bound but — as in the
source — never written into the extracted tasks. -/
def generate_and_insert_sample_data (today : Date) (message_text : String)
    (choices : List Choice) (s : Store) : Store × Except String Unit :=
  let message := Message.from_message today message_text
  match insert_message s message with
  | (s₁, .error e) => (s₁, .error e)
  | (s₁, .ok (_message_id, _)) =>
    match extract_tasks_from_message today choices with
    | .error e => (s₁, .error e)
    | .ok tasks => insertTasks s₁ tasks

/-! ### Concrete scenario inputs used to exercise the claims -/

/-- A concrete value standing in for `date.today()`. -/
def sampleDate : Date := ⟨2024, 1, 2⟩

/-- A decodable, valid `insert_task` payload. -/
def payloadA : Payload :=
  [("description", "Water the plants"), ("status", "pending")]

/-- A decodable payload whose `status` is outside the enumerated set. -/
def payloadBadStatus : Payload :=
  [("description", "Paint the fence"), ("status", "done")]

/-- A second decodable, valid `insert_task` payload. -/
def payloadC : Payload :=
  [("description", "Fix the brakes"), ("status", "completed")]

/-- A response with three `insert_task` invocations of which exactly the
middle one has an invalid `status`. -/
def threeCallResponse : List Choice :=
  [⟨"tool_calls", ⟨[⟨⟨"insert_task", .ok payloadA⟩⟩,
    ⟨⟨"insert_task", .ok payloadBadStatus⟩⟩,
    ⟨⟨"insert_task", .ok payloadC⟩⟩]⟩⟩]

/-- The task `payloadA` validates to under `sampleDate`. -/
def taskA : Task :=
  { id := none, added_at := sampleDate, last_modified_at := sampleDate,
    scheduled_for := none, scheduled_for_comment := none,
    description := "Water the plants", status := "pending", comment := "",
    from_message := none }

/-- The task `payloadC` validates to under `sampleDate`. -/
def taskC : Task :=
  { id := none, added_at := sampleDate, last_modified_at := sampleDate,
    scheduled_for := none, scheduled_for_comment := none,
    description := "Fix the brakes", status := "completed", comment := "",
    from_message := none }

/-- A response whose single choice carries an `insert_task` invocation with
undecodable argument text (a `json.JSONDecodeError`) followed by a valid
sibling invocation. -/
def decodeFailureResponse : List Choice :=
  [⟨"tool_calls", ⟨[⟨⟨"insert_task",
      .error "Expecting value: line 1 column 1 (char 0)"⟩⟩,
    ⟨⟨"insert_task", .ok payloadA⟩⟩]⟩⟩]

/-- A response with a single valid `insert_task` invocation. -/
def oneCallResponse : List Choice :=
  [⟨"tool_calls", ⟨[⟨⟨"insert_task", .ok payloadA⟩⟩]⟩⟩]

/-! ### Lemmas: decimal digit strings -/

theorem valAux_append (a : Nat) (l₁ l₂ : List Char) :
    valAux a (l₁ ++ l₂) = valAux (valAux a l₁) l₂ := by
  simp [valAux, List.foldl_append]

theorem digitChar_spec (n : Nat) (h : n < 10) :
    (Nat.digitChar n).toNat = 48 + n ∧ (Nat.digitChar n).isDigit = true ∧
      Nat.digitChar n ≠ '-' := by
  interval_cases n <;> exact ⟨by decide, by decide, by decide⟩

theorem lt_ten_pow_succ (n : Nat) : n < 10 ^ (n + 1) := by
  induction n with
  | zero => decide
  | succ k ih =>
    rw [pow_succ]
    omega

theorem natToDigitsAux_spec (fuel : Nat) : ∀ n, 1 ≤ fuel → n < 10 ^ fuel →
    natToDigitsAux fuel n ≠ [] ∧
    (∀ c ∈ natToDigitsAux fuel n, c.isDigit = true ∧ c ≠ '-') ∧
    (∀ a, valAux a (natToDigitsAux fuel n) =
      a * 10 ^ (natToDigitsAux fuel n).length + n) := by
  induction fuel with
  | zero => intro n h; omega
  | succ f ih =>
    intro n _ hlt
    by_cases h10 : n < 10
    · refine ⟨by simp [natToDigitsAux, if_pos h10], ?_, ?_⟩
      · intro c hc
        simp only [natToDigitsAux, if_pos h10, List.mem_singleton] at hc
        subst hc
        exact ⟨(digitChar_spec n h10).2.1, (digitChar_spec n h10).2.2⟩
      · intro a
        simp only [natToDigitsAux, if_pos h10, valAux, List.foldl_cons,
          List.foldl_nil, List.length_singleton, pow_one,
          (digitChar_spec n h10).1]
        omega
    · have hf : 1 ≤ f := by
        rcases Nat.eq_zero_or_pos f with h0 | h1
        · subst h0; simp at hlt; omega
        · exact h1
      have hdiv : n / 10 < 10 ^ f := by
        rw [Nat.div_lt_iff_lt_mul (by norm_num)]
        calc n < 10 ^ (f + 1) := hlt
          _ = 10 ^ f * 10 := pow_succ 10 f
      obtain ⟨hne, hdig, hval⟩ := ih (n / 10) hf hdiv
      have hmod : n % 10 < 10 := Nat.mod_lt n (by norm_num)
      have heq : natToDigitsAux (f + 1) n
          = natToDigitsAux f (n / 10) ++ [Nat.digitChar (n % 10)] := by
        simp [natToDigitsAux, if_neg h10]
      refine ⟨by simp [heq], ?_, ?_⟩
      · intro c hc
        rw [heq, List.mem_append, List.mem_singleton] at hc
        rcases hc with hc | hc
        · exact hdig c hc
        · subst hc
          exact ⟨(digitChar_spec _ hmod).2.1, (digitChar_spec _ hmod).2.2⟩
      · intro a
        rw [heq, valAux_append, List.length_append, List.length_singleton]
        have hsingle : valAux (valAux a (natToDigitsAux f (n / 10)))
            [Nat.digitChar (n % 10)]
            = 10 * valAux a (natToDigitsAux f (n / 10)) + n % 10 := by
          simp [valAux, (digitChar_spec _ hmod).1]
        rw [hsingle, hval a]
        have hdm := Nat.div_add_mod n 10
        calc 10 * (a * 10 ^ (natToDigitsAux f (n / 10)).length + n / 10) + n % 10
            = a * (10 ^ (natToDigitsAux f (n / 10)).length * 10)
              + (10 * (n / 10) + n % 10) := by ring
          _ = a * 10 ^ ((natToDigitsAux f (n / 10)).length + 1) + n := by
              rw [hdm, pow_succ]

theorem natToDigitsAux_length (fuel : Nat) : ∀ n k, 1 ≤ fuel → n < 10 ^ fuel →
    1 ≤ k → n < 10 ^ k → (natToDigitsAux fuel n).length ≤ k := by
  induction fuel with
  | zero => intro n k h; omega
  | succ f ih =>
    intro n k _ hlt hk hk10
    by_cases h10 : n < 10
    · simp only [natToDigitsAux, if_pos h10, List.length_singleton]
      omega
    · have hf : 1 ≤ f := by
        rcases Nat.eq_zero_or_pos f with h0 | h1
        · subst h0; simp at hlt; omega
        · exact h1
      obtain ⟨k', rfl⟩ : ∃ k', k = k' + 1 := ⟨k - 1, by omega⟩
      have hk' : 1 ≤ k' := by
        rcases Nat.eq_zero_or_pos k' with h0 | h1
        · subst h0; simp at hk10; omega
        · exact h1
      have hdiv : n / 10 < 10 ^ f := by
        rw [Nat.div_lt_iff_lt_mul (by norm_num)]
        calc n < 10 ^ (f + 1) := hlt
          _ = 10 ^ f * 10 := pow_succ 10 f
      have hdivk : n / 10 < 10 ^ k' := by
        rw [Nat.div_lt_iff_lt_mul (by norm_num)]
        calc n < 10 ^ (k' + 1) := hk10
          _ = 10 ^ k' * 10 := pow_succ 10 k'
      have := ih (n / 10) k' hf hdiv hk' hdivk
      simp only [natToDigitsAux, if_neg h10, List.length_append,
        List.length_singleton]
      omega

theorem natToDigits_spec (n : Nat) :
    natToDigits n ≠ [] ∧
    (∀ c ∈ natToDigits n, c.isDigit = true ∧ c ≠ '-') ∧
    (∀ a, valAux a (natToDigits n) = a * 10 ^ (natToDigits n).length + n) :=
  natToDigitsAux_spec (n + 1) n (by omega) (lt_ten_pow_succ n)

theorem natToDigits_length_le (n k : Nat) (h1 : 1 ≤ k) (h2 : n < 10 ^ k) :
    (natToDigits n).length ≤ k :=
  natToDigitsAux_length (n + 1) n k (by omega) (lt_ten_pow_succ n) h1 h2

theorem padZeros_length (k : Nat) (cs : List Char) (h : cs.length ≤ k) :
    (padZeros k cs).length = k := by
  simp [padZeros]
  omega

theorem valAux_zero_replicate (j : Nat) :
    valAux 0 (List.replicate j '0') = 0 := by
  induction j with
  | zero => rfl
  | succ i ih =>
    simpa [valAux, List.replicate_succ] using ih

theorem padZeros_natToDigits_all_digits (k n : Nat) :
    ∀ c ∈ padZeros k (natToDigits n), c.isDigit = true := by
  intro c hc
  rw [padZeros, List.mem_append] at hc
  rcases hc with hc | hc
  · rw [List.eq_of_mem_replicate hc]; decide
  · exact ((natToDigits_spec n).2.1 c hc).1

theorem padZeros_natToDigits_ne_nil (k n : Nat) :
    padZeros k (natToDigits n) ≠ [] := by
  rw [padZeros]
  intro heq
  rw [List.append_eq_nil] at heq
  exact (natToDigits_spec n).1 heq.2

theorem valAux_padZeros (k n : Nat) :
    valAux 0 (padZeros k (natToDigits n)) = n := by
  rw [padZeros, valAux_append, valAux_zero_replicate,
    (natToDigits_spec n).2.2 0, zero_mul, zero_add]

/-! ### Lemmas: the positional digit parser -/

theorem parseDigitsN_append :
    ∀ (ds : List Char) (a : Nat) (rest : List Char),
      (∀ c ∈ ds, c.isDigit = true) →
      parseDigitsN ds.length a (ds ++ rest) = some (valAux a ds, rest)
  | [], a, rest, _ => by simp [parseDigitsN, valAux]
  | c :: ds, a, rest, hdig => by
    have hc : c.isDigit = true := hdig c (by simp)
    have ih := parseDigitsN_append ds (10 * a + (c.toNat - 48)) rest
      (fun x hx => hdig x (by simp [hx]))
    simp only [List.length_cons, List.cons_append, parseDigitsN, hc, if_pos,
      if_true]
    rw [List.append_eq, ih]
    simp [valAux]

theorem parseDigitsN_padZeros (k n : Nat) (rest : List Char)
    (hlen : (padZeros k (natToDigits n)).length = k) :
    parseDigitsN k 0 (padZeros k (natToDigits n) ++ rest) = some (n, rest) := by
  have h := parseDigitsN_append (padZeros k (natToDigits n)) 0 rest
    (padZeros_natToDigits_all_digits k n)
  rw [hlen, valAux_padZeros] at h
  exact h

/-! ### Lemmas: dates -/

theorem daysInMonth_le (y m : Nat) : Date.daysInMonth y m ≤ 31 := by
  unfold Date.daysInMonth
  split <;> split <;> omega

theorem Date.fromisoformat_isoformat (d : Date) (h : d.isValid = true) :
    Date.fromisoformat d.isoformat = .ok d := by
  obtain ⟨y, m, dd⟩ := d
  simp only [Date.isValid, Bool.and_eq_true, decide_eq_true_eq] at h
  have h31 := daysInMonth_le y m
  have hy : y < 10 ^ 4 := by
    rw [show (10 : Nat) ^ 4 = 10000 by norm_num]; omega
  have hm : m < 10 ^ 2 := by
    rw [show (10 : Nat) ^ 2 = 100 by norm_num]; omega
  have hd : dd < 10 ^ 2 := by
    rw [show (10 : Nat) ^ 2 = 100 by norm_num]; omega
  have hYlen : (padZeros 4 (natToDigits y)).length = 4 :=
    padZeros_length _ _ (natToDigits_length_le y 4 (by omega) hy)
  have hMlen : (padZeros 2 (natToDigits m)).length = 2 :=
    padZeros_length _ _ (natToDigits_length_le m 2 (by omega) hm)
  have hDlen : (padZeros 2 (natToDigits dd)).length = 2 :=
    padZeros_length _ _ (natToDigits_length_le dd 2 (by omega) hd)
  have hvalid : Date.isValid ⟨y, m, dd⟩ = true := by
    simp only [Date.isValid, Bool.and_eq_true, decide_eq_true_eq]
    omega
  -- the month field starts with a digit, never with a W
  obtain ⟨c0, cs0, hM0⟩ :=
    List.exists_cons_of_ne_nil (padZeros_natToDigits_ne_nil 2 m)
  have hc0dig : c0.isDigit = true :=
    padZeros_natToDigits_all_digits 2 m c0 (by rw [hM0]; simp)
  have hc0W : c0 ≠ 'W' := by
    intro he; rw [he] at hc0dig; exact absurd hc0dig (by decide)
  -- stage 1: length gate and the year field
  have hlen : (padZeros 4 (natToDigits y) ++
      '-' :: (padZeros 2 (natToDigits m) ++
        '-' :: padZeros 2 (natToDigits dd))).length = 10 := by
    simp [List.length_append, hYlen, hMlen, hDlen]
  have step1 : Date.fromisoformat (Date.isoformat ⟨y, m, dd⟩)
      = parseIsoSep y ('-' :: (padZeros 2 (natToDigits m) ++
          '-' :: padZeros 2 (natToDigits dd))) := by
    show parseIsoDate (padZeros 4 (natToDigits y) ++
      '-' :: (padZeros 2 (natToDigits m) ++
        '-' :: padZeros 2 (natToDigits dd))) = _
    unfold parseIsoDate
    rw [if_pos (Or.inr (Or.inr hlen)), parseDigitsN_padZeros 4 y _ hYlen]
  -- stage 2: the separator is detected and consumed
  have step2 : parseIsoSep y ('-' :: (padZeros 2 (natToDigits m) ++
      '-' :: padZeros 2 (natToDigits dd)))
      = parseIsoBody y true (padZeros 2 (natToDigits m) ++
          '-' :: padZeros 2 (natToDigits dd)) := by
    simp [parseIsoSep]
  -- stage 3: the first month character is a digit, not a W
  have step3 : parseIsoBody y true (padZeros 2 (natToDigits m) ++
      '-' :: padZeros 2 (natToDigits dd))
      = parseIsoMonthTail y true (padZeros 2 (natToDigits m) ++
          '-' :: padZeros 2 (natToDigits dd)) := by
    rw [hM0]
    simp [parseIsoBody, hc0W]
  -- stage 4: month, second separator, day, and the constructor check
  have hDparse : parseDigitsN 2 0 (padZeros 2 (natToDigits dd))
      = some (dd, []) := by
    have h := parseDigitsN_padZeros 2 dd [] hDlen
    rwa [List.append_nil] at h
  have step4 : parseIsoMonthTail y true (padZeros 2 (natToDigits m) ++
      '-' :: padZeros 2 (natToDigits dd)) = .ok ⟨y, m, dd⟩ := by
    unfold parseIsoMonthTail
    rw [parseDigitsN_padZeros 2 m _ hMlen]
    simp [sepConsume, hDparse, hvalid]
  rw [step1, step2, step3, step4]

theorem Date.isoformat_ne_empty (d : Date) : d.isoformat ≠ "" := by
  intro heq
  have hdata : (Date.isoformat d).data = ("" : String).data := by rw [heq]
  obtain ⟨y, m, dd⟩ := d
  have : (padZeros 4 (natToDigits y) ++
      '-' :: (padZeros 2 (natToDigits m) ++
        '-' :: padZeros 2 (natToDigits dd))) = ([] : List Char) := hdata
  rw [List.append_eq_nil] at this
  exact List.cons_ne_nil _ _ this.2

/-! ### Lemmas: extraction protocol -/

theorem processToolCalls_all_decoded (today : Date) :
    ∀ (tcs : List ToolCall) (tasks : List Task),
      (∀ tc ∈ tcs, tc.function.name == "insert_task" →
        (tc.function.arguments).isOk = true) →
      processToolCalls today tasks tcs
        = .ok (tasks ++ tcs.filterMap (toolCallTask today))
  | [], tasks, _ => by simp [processToolCalls]
  | tc :: rest, tasks, h => by
    have hrest : ∀ t ∈ rest, t.function.name == "insert_task" →
        (t.function.arguments).isOk = true :=
      fun t ht => h t (by simp [ht])
    by_cases hname : (tc.function.name == "insert_task") = true
    · have hok := h tc (by simp) hname
      match harg : tc.function.arguments with
      | .error e => rw [harg] at hok; simp [Except.isOk, Except.toBool] at hok
      | .ok p =>
        match htask : Task.from_llm_tool_call today p with
        | .error e =>
          rw [List.filterMap_cons]
          simp only [processToolCalls, hname, if_pos, harg, htask,
            toolCallTask, Except.toOption]
          exact processToolCalls_all_decoded today rest tasks hrest
        | .ok task =>
          rw [List.filterMap_cons]
          simp only [processToolCalls, hname, if_pos, harg, htask,
            toolCallTask, Except.toOption]
          rw [processToolCalls_all_decoded today rest (tasks ++ [task]) hrest]
          simp
    · rw [List.filterMap_cons]
      simp only [processToolCalls, hname, toolCallTask, Bool.false_eq_true,
        if_false]
      exact processToolCalls_all_decoded today rest tasks hrest

theorem validTasksOf_cons (today : Date) (c : Choice) (rest : List Choice) :
    validTasksOf today (c :: rest)
      = choiceValidTasks today c ++ validTasksOf today rest := by
  simp [validTasksOf]

theorem processChoices_all_decoded (today : Date) :
    ∀ (choices : List Choice) (tasks : List Task),
      (∀ c ∈ choices, c.finish_reason == "tool_calls" →
        ∀ tc ∈ c.message.tool_calls, tc.function.name == "insert_task" →
          (tc.function.arguments).isOk = true) →
      processChoices today tasks choices
        = .ok (tasks ++ validTasksOf today choices)
  | [], tasks, _ => by simp [processChoices, validTasksOf]
  | c :: rest, tasks, h => by
    have hrest : ∀ x ∈ rest, x.finish_reason == "tool_calls" →
        ∀ tc ∈ x.message.tool_calls, tc.function.name == "insert_task" →
          (tc.function.arguments).isOk = true :=
      fun x hx => h x (by simp [hx])
    rw [validTasksOf_cons]
    by_cases hfin : (c.finish_reason == "tool_calls") = true
    · have hinner := processToolCalls_all_decoded today c.message.tool_calls
        tasks (h c (by simp) hfin)
      simp only [processChoices, hfin, if_pos, hinner, choiceValidTasks]
      rw [processChoices_all_decoded today rest _ hrest]
      simp
    · simp only [processChoices, hfin, Bool.false_eq_true, if_false,
        choiceValidTasks]
      rw [processChoices_all_decoded today rest tasks hrest]
      simp

theorem processChoices_no_tool_calls (today : Date) :
    ∀ (choices : List Choice) (tasks : List Task),
      (∀ c ∈ choices, c.finish_reason ≠ "tool_calls") →
      processChoices today tasks choices = .ok tasks
  | [], tasks, _ => rfl
  | c :: rest, tasks, h => by
    have hfin : (c.finish_reason == "tool_calls") = false :=
      beq_eq_false_iff_ne.mpr (h c (by simp))
    simp only [processChoices, hfin, Bool.false_eq_true, if_false]
    exact processChoices_no_tool_calls today rest tasks
      (fun x hx => h x (by simp [hx]))

/-! ### Claim theorems -/

/-- C1 (amended): in `extract_tasks_from_message`, a tool invocation whose
decoded payload fails validation is dropped in isolation — all sibling
invocations and other choices are still processed, and for every response
in which every `insert_task` invocation's argument payload decodes, the
result is exactly the valid tasks in their original emission order.  (A
failure of the argument decode itself is *not* caught — `json.loads` runs
outside the `try` block — and aborts the extraction; see the
counterexample.) -/
theorem c1_validation_failure_isolated (today : Date) (choices : List Choice)
    (hdec : ∀ c ∈ choices, c.finish_reason == "tool_calls" →
      ∀ tc ∈ c.message.tool_calls, tc.function.name == "insert_task" →
        (tc.function.arguments).isOk = true) :
    extract_tasks_from_message today choices
      = .ok (validTasksOf today choices) := by
  unfold extract_tasks_from_message
  simpa using processChoices_all_decoded today choices [] hdec

/-- C1 witness: three `insert_task` invocations, the middle one with an
invalid `status`, yield exactly the two valid tasks in emission order. -/
theorem c1_validation_failure_isolated_witness :
    extract_tasks_from_message sampleDate threeCallResponse
      = .ok [taskA, taskC] := by
  rw [c1_validation_failure_isolated sampleDate threeCallResponse (by decide)]
  rfl

/-- C1 counterexample: a decode failure of one invocation's argument
payload is not caught: it aborts `extract_tasks_from_message` entirely —
the valid sibling invocation is lost — refuting the claim that a decode
failure drops only the offending item and processing of siblings
continues. -/
theorem c1_decode_failure_aborts :
    extract_tasks_from_message sampleDate decodeFailureResponse
      = .error "Expecting value: line 1 column 1 (char 0)" := rfl

/-- C9: for every model response in which every choice terminates for a
reason other than tool invocation, `extract_tasks_from_message` returns
the empty list without raising (each such choice only logs a warning and
contributes no tasks). -/
theorem c9_no_tool_calls_yields_empty (today : Date) (choices : List Choice)
    (h : ∀ c ∈ choices, c.finish_reason ≠ "tool_calls") :
    extract_tasks_from_message today choices = .ok [] :=
  processChoices_no_tool_calls today choices [] h

/-- C9 witness: a single choice finishing with reason `"stop"`. -/
theorem c9_no_tool_calls_yields_empty_witness :
    extract_tasks_from_message sampleDate [⟨"stop", ⟨[]⟩⟩] = .ok [] :=
  c9_no_tool_calls_yields_empty sampleDate [⟨"stop", ⟨[]⟩⟩] (by decide)

/-- Shared success-path lemma for `Task.from_llm_tool_call`: on a payload
with a non-empty `description`, a `status` in the enumerated set, and a
`scheduled_for` that is either falsy or parses, the call succeeds and the
fields come from the payload with the documented defaults. -/
theorem from_llm_tool_call_ok (today : Date) (p : Payload) (desc st : String)
    (hd : Payload.get p "description" = some desc) (hdne : desc ≠ "")
    (hs : Payload.get p "status" = some st) (hst : st ∈ taskStatuses)
    (sf : Option Date)
    (hsf : (truthy (Payload.get p "scheduled_for") = false ∧ sf = none) ∨
      (∃ s d, Payload.get p "scheduled_for" = some s ∧ s ≠ "" ∧
        Date.fromisoformat s = .ok d ∧ sf = some d)) :
    Task.from_llm_tool_call today p
      = .ok { id := none, added_at := today, last_modified_at := today,
              scheduled_for := sf,
              scheduled_for_comment :=
                if truthy (Payload.get p "scheduled_for_comment") then
                  Payload.get p "scheduled_for_comment"
                else none,
              description := desc, status := st,
              comment := Payload.getD p "comment" "",
              from_message := none } := by
  have hstne : st ≠ "" := by rintro rfl; simp [taskStatuses] at hst
  have htd : truthy (Payload.get p "description") = true := by
    rw [hd]; simp [truthy, hdne]
  have hts : truthy (Payload.get p "status") = true := by
    rw [hs]; simp [truthy, hstne]
  have hgd : Payload.getD p "description" "" = desc := by
    simp [Payload.getD, hd]
  have hgs : Payload.getD p "status" "" = st := by
    simp [Payload.getD, hs]
  have hmem : Payload.getD p "status" "" ∈ taskStatuses := by
    rw [hgs]; exact hst
  rcases hsf with ⟨hf, rfl⟩ | ⟨s, d, hsg, hsne, hparse, rfl⟩
  · simp [Task.from_llm_tool_call, htd, hts, hmem, hst, hf, hgd, hgs]
  · have htsf : truthy (Payload.get p "scheduled_for") = true := by
      rw [hsg]; simp [truthy, hsne]
    have hgsf : Payload.getD p "scheduled_for" "" = s := by
      simp [Payload.getD, hsg]
    simp [Task.from_llm_tool_call, htd, hts, hmem, hst, htsf, hgsf, hparse,
      hgd, hgs, Except.map]

/-- C3 counterexample: `Message.from_message` applied to the empty text
succeeds and returns a message entity — refuting the claim that message
creation fails for every empty input text (the source performs no
emptiness check and its body has no failure path). -/
theorem c3_empty_text_accepted :
    Message.from_message sampleDate ""
      = { id := none, added_at := sampleDate, message := "" } := rfl

/-- C3 (amended): `Message.from_message` builds a new, unpersisted message
(`id = none`) dated today and carrying the given text, for every input
text — including the empty text; no emptiness check is performed. -/
theorem c3_from_message_builds_unpersisted (today : Date) (text : String) :
    Message.from_message today text
      = { id := none, added_at := today, message := text } := rfl

/-- C4 counterexample: a payload whose `scheduled_for` key is present but
equal to the empty string — a value that is not a valid calendar date —
is nevertheless accepted by `Task.from_llm_tool_call` (the falsy value is
treated as absent), refuting the claim as stated. -/
theorem c4_empty_scheduled_for_accepted :
    Task.from_llm_tool_call sampleDate
      [("description", "x"), ("status", "pending"), ("scheduled_for", "")]
      = .ok { id := none, added_at := sampleDate,
              last_modified_at := sampleDate, scheduled_for := none,
              scheduled_for_comment := none, description := "x",
              status := "pending", comment := "", from_message := none } :=
  rfl

/-- C4 (amended): for every payload in which `description` is missing or
empty, or the `status` value is missing or not one of the four enumerated
values, or `scheduled_for` is present, *non-empty* and not a valid
calendar date — i.e. a string `date.fromisoformat` rejects, the parser
being modelled in full (extended, basic and ISO-week forms) — then
`Task.from_llm_tool_call` fails with a `ValueError` and produces no
entity. -/
theorem c4_invalid_payload_rejected (today : Date) (p : Payload)
    (h : truthy (Payload.get p "description") = false ∨
      Payload.getD p "status" "" ∉ taskStatuses ∨
      (∃ s, Payload.get p "scheduled_for" = some s ∧ s ≠ "" ∧
        ∃ e, Date.fromisoformat s = .error e)) :
    ∃ e, Task.from_llm_tool_call today p = .error e := by
  rcases h with h | h | ⟨s, hsg, hsne, e, he⟩
  · exact ⟨"description must be provided",
      by simp [Task.from_llm_tool_call, h]⟩
  · by_cases hd : truthy (Payload.get p "description") = true
    · by_cases hs : truthy (Payload.get p "status") = true
      · exact ⟨"status must be one of pending, running, completed, failed",
          by simp [Task.from_llm_tool_call, hd, hs, h]⟩
      · have hs' : truthy (Payload.get p "status") = false := by
          simpa using hs
        exact ⟨"status must be provided",
          by simp [Task.from_llm_tool_call, hd, hs']⟩
    · have hd' : truthy (Payload.get p "description") = false := by
        simpa using hd
      exact ⟨"description must be provided",
        by simp [Task.from_llm_tool_call, hd']⟩
  · by_cases hd : truthy (Payload.get p "description") = true
    · by_cases hs : truthy (Payload.get p "status") = true
      · by_cases hmem : Payload.getD p "status" "" ∈ taskStatuses
        · have htsf : truthy (Payload.get p "scheduled_for") = true := by
            rw [hsg]; simp [truthy, hsne]
          have hgsf : Payload.getD p "scheduled_for" "" = s := by
            simp [Payload.getD, hsg]
          exact ⟨e, by simp [Task.from_llm_tool_call, hd, hs, hmem, htsf,
            hgsf, he, Except.map]⟩
        · exact ⟨"status must be one of pending, running, completed, failed",
            by simp [Task.from_llm_tool_call, hd, hs, hmem]⟩
      · have hs' : truthy (Payload.get p "status") = false := by
          simpa using hs
        exact ⟨"status must be provided",
          by simp [Task.from_llm_tool_call, hd, hs']⟩
    · have hd' : truthy (Payload.get p "description") = false := by
        simpa using hd
      exact ⟨"description must be provided",
        by simp [Task.from_llm_tool_call, hd']⟩

/-- C4 witness: a payload missing `description` is rejected. -/
theorem c4_invalid_payload_rejected_witness :
    ∃ e, Task.from_llm_tool_call sampleDate [("status", "pending")]
      = .error e :=
  c4_invalid_payload_rejected sampleDate [("status", "pending")]
    (Or.inl (by decide))

/-- C5: for every valid structured payload — `description` present and
non-empty, `status` in the enumerated set, `scheduled_for` absent/falsy or
a valid date — `Task.from_llm_tool_call` succeeds and the resulting task's
fields equal the input fields, with `comment` defaulting to the empty
string, `scheduled_for_comment` to absent when not supplied, and with
`from_message` never set by this path. -/
theorem c5_valid_payload_parsed (today : Date) (p : Payload) (desc st : String)
    (hd : Payload.get p "description" = some desc) (hdne : desc ≠ "")
    (hs : Payload.get p "status" = some st) (hst : st ∈ taskStatuses)
    (sf : Option Date)
    (hsf : (truthy (Payload.get p "scheduled_for") = false ∧ sf = none) ∨
      (∃ s d, Payload.get p "scheduled_for" = some s ∧ s ≠ "" ∧
        Date.fromisoformat s = .ok d ∧ sf = some d)) :
    Task.from_llm_tool_call today p
      = .ok { id := none, added_at := today, last_modified_at := today,
              scheduled_for := sf,
              scheduled_for_comment :=
                if truthy (Payload.get p "scheduled_for_comment") then
                  Payload.get p "scheduled_for_comment"
                else none,
              description := desc, status := st,
              comment := Payload.getD p "comment" "",
              from_message := none } :=
  from_llm_tool_call_ok today p desc st hd hdne hs hst sf hsf

/-- C5 witness: a fully populated valid payload, with a scheduled date. -/
theorem c5_valid_payload_parsed_witness :
    Task.from_llm_tool_call sampleDate
      [("description", "Fix the roof"), ("status", "running"),
       ("scheduled_for", "2024-03-05"), ("scheduled_for_comment", "by spring"),
       ("comment", "ladder needed")]
      = .ok { id := none, added_at := sampleDate,
              last_modified_at := sampleDate,
              scheduled_for := some ⟨2024, 3, 5⟩,
              scheduled_for_comment := some "by spring",
              description := "Fix the roof", status := "running",
              comment := "ladder needed", from_message := none } := by
  have h := c5_valid_payload_parsed sampleDate
    [("description", "Fix the roof"), ("status", "running"),
     ("scheduled_for", "2024-03-05"), ("scheduled_for_comment", "by spring"),
     ("comment", "ladder needed")]
    "Fix the roof" "running" rfl (by decide) rfl (by decide)
    (some ⟨2024, 3, 5⟩)
    (Or.inr ⟨"2024-03-05", ⟨2024, 3, 5⟩, rfl, by decide, rfl, rfl⟩)
  exact h.trans (by rfl)

/-- C10: a `scheduled_for` that is present but equal to the empty string is
treated as absent — parsing succeeds (given an otherwise valid payload)
with `scheduled_for = none` — and a present-but-empty
`scheduled_for_comment` likewise becomes `none` rather than the empty
string. -/
theorem c10_empty_optional_fields_absent (today : Date) (p : Payload)
    (desc st : String)
    (hd : Payload.get p "description" = some desc) (hdne : desc ≠ "")
    (hs : Payload.get p "status" = some st) (hst : st ∈ taskStatuses)
    (hsf : Payload.get p "scheduled_for" = some "")
    (hsfc : Payload.get p "scheduled_for_comment" = some "") :
    ∃ t, Task.from_llm_tool_call today p = .ok t ∧
      t.scheduled_for = none ∧ t.scheduled_for_comment = none := by
  refine ⟨_, from_llm_tool_call_ok today p desc st hd hdne hs hst none
    (Or.inl ⟨by rw [hsf]; simp [truthy], rfl⟩), rfl, ?_⟩
  have : truthy (Payload.get p "scheduled_for_comment") = false := by
    rw [hsfc]; simp [truthy]
  simp [this]

/-- C10 witness: both optional fields present but empty. -/
theorem c10_empty_optional_fields_absent_witness :
    ∃ t, Task.from_llm_tool_call sampleDate
      [("description", "x"), ("status", "pending"), ("scheduled_for", ""),
       ("scheduled_for_comment", "")] = .ok t ∧
      t.scheduled_for = none ∧ t.scheduled_for_comment = none :=
  c10_empty_optional_fields_absent sampleDate
    [("description", "x"), ("status", "pending"), ("scheduled_for", ""),
     ("scheduled_for_comment", "")]
    "x" "pending" rfl (by decide) rfl (by decide) rfl rfl

/-- Shared lemma: a `Message` whose stored date is valid survives the
row round trip under any primary key equal to its id. -/
theorem message_roundtrip (m : Message) (i : Int) (hid : m.id = some i)
    (hv : m.added_at.isValid = true) :
    Message.from_db ⟨i, m.to_db.1, m.to_db.2⟩ = .ok m := by
  obtain ⟨mid, ma, mm⟩ := m
  simp only [Message.id] at hid
  subst hid
  simp [Message.from_db, Message.to_db, Date.fromisoformat_isoformat ma hv]

/-- Shared lemma: a `Task` whose dates are valid survives the row round
trip under any primary key equal to its id. -/
theorem task_roundtrip (t : Task) (i : Int) (hid : t.id = some i)
    (h1 : t.added_at.isValid = true) (h2 : t.last_modified_at.isValid = true)
    (h3 : ∀ d, t.scheduled_for = some d → d.isValid = true) :
    Task.from_db (TaskRow.ofData i t.to_db) = .ok t := by
  obtain ⟨tid, ta, tlm, tsf, tsfc, tdesc, tst, tcom, tfm⟩ := t
  simp only [Task.id] at hid
  subst hid
  simp only [Task.added_at] at h1
  simp only [Task.last_modified_at] at h2
  cases tsf with
  | none =>
    simp [Task.from_db, TaskRow.ofData, Task.to_db, parseOptDate,
      Date.fromisoformat_isoformat ta h1, Date.fromisoformat_isoformat tlm h2]
  | some d =>
    have hv := h3 d rfl
    have hne : (Date.isoformat d == "") = false :=
      beq_eq_false_iff_ne.mpr (Date.isoformat_ne_empty d)
    simp [Task.from_db, TaskRow.ofData, Task.to_db, parseOptDate, hne,
      Date.fromisoformat_isoformat ta h1, Date.fromisoformat_isoformat tlm h2,
      Date.fromisoformat_isoformat d hv, Except.map]

/-- C6: the round-trip law for row conversion — for every valid `Message`
(valid stored date) and every valid `Task` (valid dates, status in the
enumerated set) with non-null ids, reading back the row written by
`to_db` under the entity's id yields an entity equal to the original. -/
theorem c6_row_conversion_roundtrip (m : Message) (t : Task) (im it : Int)
    (hmid : m.id = some im) (hmv : m.added_at.isValid = true)
    (htid : t.id = some it)
    (h1 : t.added_at.isValid = true) (h2 : t.last_modified_at.isValid = true)
    (h3 : ∀ d, t.scheduled_for = some d → d.isValid = true)
    (_hst : t.status ∈ taskStatuses) :
    Message.from_db ⟨im, m.to_db.1, m.to_db.2⟩ = .ok m ∧
    Task.from_db (TaskRow.ofData it t.to_db) = .ok t :=
  ⟨message_roundtrip m im hmid hmv, task_roundtrip t it htid h1 h2 h3⟩

/-- C6 witness: a concrete persisted message and task (with a scheduled
date) both survive the round trip. -/
theorem c6_row_conversion_roundtrip_witness :
    Message.from_db ⟨5, (Message.mk (some 5) ⟨2024, 1, 2⟩ "Fix the brakes").to_db.1,
        (Message.mk (some 5) ⟨2024, 1, 2⟩ "Fix the brakes").to_db.2⟩
      = .ok (Message.mk (some 5) ⟨2024, 1, 2⟩ "Fix the brakes") ∧
    Task.from_db (TaskRow.ofData 7
        (Task.mk (some 7) ⟨2024, 1, 2⟩ ⟨2024, 1, 3⟩ (some ⟨2024, 2, 29⟩)
          (some "late February") "Fix the brakes" "pending" "garage booked"
          (some 5)).to_db)
      = .ok (Task.mk (some 7) ⟨2024, 1, 2⟩ ⟨2024, 1, 3⟩ (some ⟨2024, 2, 29⟩)
          (some "late February") "Fix the brakes" "pending" "garage booked"
          (some 5)) :=
  c6_row_conversion_roundtrip
    (Message.mk (some 5) ⟨2024, 1, 2⟩ "Fix the brakes")
    (Task.mk (some 7) ⟨2024, 1, 2⟩ ⟨2024, 1, 3⟩ (some ⟨2024, 2, 29⟩)
      (some "late February") "Fix the brakes" "pending" "garage booked"
      (some 5))
    5 7 rfl (by decide) rfl (by decide) (by decide)
    (by intro d hd; cases hd; decide) (by decide)

/-- C7: inserting a `Message` or a `Task` whose id is already set fails
with the precondition error raised before any row is written — the
returned store is the input store unchanged. -/
theorem c7_reinsertion_rejected (s : Store) (m : Message) (t : Task)
    (i j : Int) (hm : m.id = some i) (ht : t.id = some j) :
    insert_message s m
      = (s, .error "Message.id should be None when inserting a new message") ∧
    insert_task s t
      = (s, .error "Task.id should be None when inserting a new task") := by
  constructor
  · simp [insert_message, hm]
  · simp [insert_task, ht]

/-- C7 witness: concrete already-persisted entities against the empty
store. -/
theorem c7_reinsertion_rejected_witness :
    insert_message Store.empty
        (Message.mk (some 3) sampleDate "already persisted")
      = (Store.empty,
         .error "Message.id should be None when inserting a new message") ∧
    insert_task Store.empty { taskA with id := some 4 }
      = (Store.empty,
         .error "Task.id should be None when inserting a new task") :=
  c7_reinsertion_rejected Store.empty
    (Message.mk (some 3) sampleDate "already persisted")
    { taskA with id := some 4 } 3 4 rfl rfl

/-- C8: with foreign-key enforcement active on the connection, inserting a
`Task` whose `from_message` names an id with no matching `messages` row
fails with the engine's referential error and the task row is not created
— the returned store is the input store unchanged. -/
theorem c8_dangling_reference_rejected (s : Store) (t : Task) (i : Int)
    (hfk : s.foreignKeysOn = true) (hid : t.id = none)
    (hfm : t.from_message = some i)
    (habs : ∀ r ∈ s.messages, r.id ≠ i) :
    insert_task s t = (s, .error "FOREIGN KEY constraint failed") := by
  have hany : (s.messages.any fun r => r.id == i) = false := by
    rw [List.any_eq_false]
    intro r hr
    simp [habs r hr]
  simp [insert_task, hid, hfk, hfm, hany]

/-- C8 witness: a task referencing message id 1 against a freshly
initialized (empty, foreign-keys-on) store. -/
theorem c8_dangling_reference_rejected_witness :
    insert_task (create_tables Store.empty) { taskA with from_message := some 1 }
      = (create_tables Store.empty, .error "FOREIGN KEY constraint failed") :=
  c8_dangling_reference_rejected (create_tables Store.empty)
    { taskA with from_message := some 1 } 1 rfl rfl rfl (by decide)

/-- C2 — evaluation of the orchestrator at a failing input for the claim.
The pipeline persists the message (which receives id 1) and then persists
the extracted task, but `Task.from_llm_tool_call` sets `from_message :=
none` and `generate_and_insert_sample_data` never overwrites it, so the
persisted task row carries `from_message = none` instead of the message
identifier obtained from the insert. -/
theorem c2_extracted_tasks_not_linked :
    (generate_and_insert_sample_data sampleDate "Water the plants"
        oneCallResponse (create_tables Store.empty)).2 = .ok () ∧
    ((generate_and_insert_sample_data sampleDate "Water the plants"
        oneCallResponse (create_tables Store.empty)).1.messages.map
          MessageRow.id) = [1] ∧
    (generate_and_insert_sample_data sampleDate "Water the plants"
        oneCallResponse (create_tables Store.empty)).1.tasks ≠ [] ∧
    ∀ r ∈ (generate_and_insert_sample_data sampleDate "Water the plants"
        oneCallResponse (create_tables Store.empty)).1.tasks,
      r.from_message = none :=
  ⟨rfl, rfl, by decide, by decide⟩

end MailRememberer
